import Mathlib

/-!
Verification of the audio-device core of libSDL2pp (src/SDL2pp/AudioDevice.hh).

The repository ships the class declaration only; the member-function bodies
live in a translation unit that is not part of the given sources.  Where a
definition below embeds behaviour that is only described by the accompanying
specification, its doc comment starts with the words Modelled from the spec
and names the missing piece.  Declaration-level facts (const vs non-const
parameters, deleted copy operations, noexcept move operations) come from the
header itself.

The SDL audio subsystem is embedded as an explicit state value (a test
double, as the specification prescribes for testable properties): it keeps a
per-device recursive lock counter, the set of registered device ids, a
per-device playback status, and a log of the primitive calls made into it.
-/

set_option autoImplicit false

namespace SDL2pp

/-- SDL_AudioDeviceID: opaque native identifier of an open device session.
The value 0 is the invalid sentinel meaning that no device is owned. -/
abbrev DeviceId := Nat

/-- SDL_AudioStatus as returned by SDL_GetAudioDeviceStatus. -/
inductive SDL_AudioStatus where
  | SDL_AUDIO_STOPPED
  | SDL_AUDIO_PLAYING
  | SDL_AUDIO_PAUSED
deriving DecidableEq, Repr

/-- One primitive call into the audio subsystem, as recorded in the
subsystem log.  Only the device-open primitive can fail and raise an
error; close, lock, unlock and pause are no-fail primitives. -/
inductive Call where
  | openCall (spec : Nat)
  | closeCall (id : DeviceId)
  | lockCall (id : DeviceId)
  | unlockCall (id : DeviceId)
  | pauseCall (id : DeviceId) (pause_on : Bool)
deriving DecidableEq, Repr

/-- Whether a subsystem primitive can raise an error: only opening a
device can (DeviceOpenError); all other primitives are no-fail. -/
def Call.canThrow : Call → Bool
  | .openCall _ => true
  | _ => false

/-- Modelled from the spec: the state of the audio subsystem test double
(the SDL library side, whose behaviour the missing translation unit calls
into).  accepts decides which format descriptors can be negotiated,
negotiate gives the actually negotiated format, errorMsg is the diagnostic
text of the subsystem, nextId feeds fresh non-sentinel device ids, openIds
is the set of registered (open) devices, status and lockCount are the
per-device playback status and recursive lock counter, and log records
every primitive call made. -/
structure AudioSubsystem where
  accepts : Nat → Bool
  negotiate : Nat → Nat
  errorMsg : String
  nextId : Nat
  openIds : List DeviceId
  status : DeviceId → SDL_AudioStatus
  lockCount : DeviceId → Nat
  log : List Call

/-- Modelled from the spec: SDL_LockAudioDevice increments the recursive
lock counter of the device; it always succeeds, also when the counter is
already positive (recursive acquisition). -/
def SDL_LockAudioDevice (s : AudioSubsystem) (id : DeviceId) : AudioSubsystem :=
  { s with
    lockCount := fun x => if x = id then s.lockCount x + 1 else s.lockCount x
    log := s.log ++ [Call.lockCall id] }

/-- Modelled from the spec: SDL_UnlockAudioDevice decrements the recursive
lock counter of the device; the device becomes unlocked only when the
counter returns to zero. -/
def SDL_UnlockAudioDevice (s : AudioSubsystem) (id : DeviceId) : AudioSubsystem :=
  { s with
    lockCount := fun x => if x = id then s.lockCount x - 1 else s.lockCount x
    log := s.log ++ [Call.unlockCall id] }

/-- Modelled from the spec: SDL_CloseAudioDevice unregisters the device id;
it never fails (best-effort close). -/
def SDL_CloseAudioDevice (s : AudioSubsystem) (id : DeviceId) : AudioSubsystem :=
  { s with
    openIds := s.openIds.filter (fun x => x != id)
    log := s.log ++ [Call.closeCall id] }

/-- Modelled from the spec: SDL_PauseAudioDevice suspends or resumes
callback delivery for a registered device; on an unregistered (for example
sentinel) id it records the call and has no further effect. -/
def SDL_PauseAudioDevice (s : AudioSubsystem) (id : DeviceId) (pause_on : Bool) :
    AudioSubsystem :=
  let s0 := { s with log := s.log ++ [Call.pauseCall id pause_on] }
  if s.openIds.contains id then
    { s0 with
      status := fun x =>
        if x = id then
          (if pause_on then SDL_AudioStatus.SDL_AUDIO_PAUSED
           else SDL_AudioStatus.SDL_AUDIO_PLAYING)
        else s.status x }
  else s0

/-- Modelled from the spec: SDL_GetAudioDeviceStatus reports the playback
status of a registered device and SDL_AUDIO_STOPPED for any id that is not
a registered open device. -/
def SDL_GetAudioDeviceStatus (s : AudioSubsystem) (id : DeviceId) : SDL_AudioStatus :=
  if s.openIds.contains id then s.status id else SDL_AudioStatus.SDL_AUDIO_STOPPED

/-- Modelled from the spec: the subsystem invokes the registered trampoline
of a device only when the recursive lock counter of that device is zero;
while the device is locked the callback is not called. -/
def trampolineDelivers (s : AudioSubsystem) (id : DeviceId) : Bool :=
  decide (s.lockCount id = 0)

/-- AudioDevice::LockHandle: holds a pointer to the locked AudioDevice, or
null for a no-op lock.  The embedding keeps the device id the handle is
bound to; none models the null pointer. -/
structure LockHandle where
  device_ : Option DeviceId
deriving DecidableEq, Repr

/-- The guarded acquire a LockHandle performs: the subsystem lock primitive
is called exactly when the handle is bound to a device (the pointer is not
null). -/
def lockBinding (s : AudioSubsystem) : Option DeviceId → AudioSubsystem
  | none => s
  | some id => SDL_LockAudioDevice s id

/-- The guarded release a LockHandle performs: the subsystem unlock
primitive is called exactly when the handle is bound to a device. -/
def unlockBinding (s : AudioSubsystem) : Option DeviceId → AudioSubsystem
  | none => s
  | some id => SDL_UnlockAudioDevice s id

/-- A world in which LockHandle tokens live: the subsystem state together
with the list of tokens created so far.  A slot holding a handle bound to
some device is a live device-bound token; a slot holding the null binding
is a no-op, moved-from or already destroyed token (all of which behave
identically: their destruction performs nothing). -/
structure LockWorld where
  sub : AudioSubsystem
  tokens : List LockHandle

/-- The special member functions of AudioDevice::LockHandle, as operations
on a LockWorld; indices select the token slot the member function runs on.
lockOp is AudioDevice::Lock() creating a fresh bound token; destroyOp runs
the destructor of a slot (after which the slot is the dead null token). -/
inductive LockOp where
  | lockOp (id : DeviceId)
  | copyCtorOp (i : Nat)
  | copyAssignOp (i j : Nat)
  | moveCtorOp (i : Nat)
  | moveAssignOp (i j : Nat)
  | destroyOp (i : Nat)
deriving DecidableEq, Repr

/-- Modelled from the spec: the bodies of the LockHandle special member
functions (the translation unit defining them is not among the sources).
Locking constructs a bound token after calling the lock primitive; copy
construction re-acquires the lock of the source binding; copy assignment
first releases the own unit, then takes the source binding and re-acquires
(self-assignment is a no-op); move construction and move assignment
transfer the binding without acquiring, nulling the source, with move
assignment first releasing the unit the destination held; destruction
releases the unit of a bound token and nothing for a null token. -/
def LockWorld.runOp (w : LockWorld) : LockOp → LockWorld
  | .lockOp id =>
      { sub := SDL_LockAudioDevice w.sub id
        tokens := w.tokens ++ [⟨some id⟩] }
  | .copyCtorOp i =>
      match w.tokens[i]? with
      | none => w
      | some h =>
          { sub := lockBinding w.sub h.device_
            tokens := w.tokens ++ [h] }
  | .copyAssignOp i j =>
      if i = j then w else
      match w.tokens[i]?, w.tokens[j]? with
      | some hi, some hj =>
          { sub := lockBinding (unlockBinding w.sub hi.device_) hj.device_
            tokens := w.tokens.set i hj }
      | _, _ => w
  | .moveCtorOp i =>
      match w.tokens[i]? with
      | none => w
      | some h =>
          { sub := w.sub
            tokens := (w.tokens.set i ⟨none⟩) ++ [h] }
  | .moveAssignOp i j =>
      if i = j then w else
      match w.tokens[i]?, w.tokens[j]? with
      | some hi, some hj =>
          { sub := unlockBinding w.sub hi.device_
            tokens := (w.tokens.set i hj).set j ⟨none⟩ }
      | _, _ => w
  | .destroyOp i =>
      match w.tokens[i]? with
      | none => w
      | some h =>
          { sub := unlockBinding w.sub h.device_
            tokens := w.tokens.set i ⟨none⟩ }

/-- Run a sequence of LockHandle member-function calls. -/
def LockWorld.runProg (w : LockWorld) (ops : List LockOp) : LockWorld :=
  ops.foldl LockWorld.runOp w

/-- Number of live tokens bound to a given device. -/
def LockWorld.boundCount (w : LockWorld) (id : DeviceId) : Nat :=
  w.tokens.countP (fun h => h.device_ == some id)

/-- The lock-accounting invariant: for every device, the recursive lock
counter maintained by the subsystem equals the number of live device-bound
tokens for that device. -/
def LockWorld.Inv (w : LockWorld) : Prop :=
  ∀ id, w.sub.lockCount id = w.boundCount id

/-- A quiescent initial world: no device locked, no token created yet. -/
def lockWorld0 : LockWorld :=
  { sub :=
      { accepts := fun _ => true
        negotiate := fun spec => spec
        errorMsg := ""
        nextId := 0
        openIds := []
        status := fun _ => SDL_AudioStatus.SDL_AUDIO_STOPPED
        lockCount := fun _ => 0
        log := [] }
    tokens := [] }

/-- SDL2pp::AudioDevice data members (AudioDevice.hh lines 161 to 163):
device_id_ holds the SDL2 device id (0 when no device is owned) and
callback_ the type-erased audio callback; the embedding codes a callback
value as a natural number, none standing for the empty std::function. -/
structure AudioDevice where
  device_id_ : Nat
  callback_ : Option Nat
deriving DecidableEq, Repr

/-- The error raised when a device cannot be opened; it carries the
subsystem diagnostic text. -/
structure DeviceOpenError where
  message : String
deriving DecidableEq, Repr

/-- Modelled from the spec: the subsystem open primitive of the test
double.  An accepted format yields a fresh non-sentinel device id,
registered and initially paused, together with the negotiated format; a
rejected format registers nothing and changes nothing besides logging the
attempt. -/
def SDL_OpenAudioDevice (s : AudioSubsystem) (spec : Nat) :
    AudioSubsystem × Option (DeviceId × Nat) :=
  let s0 := { s with log := s.log ++ [Call.openCall spec] }
  if s.accepts spec then
    let id := s.nextId + 1
    ({ s0 with
        nextId := id
        openIds := s0.openIds ++ [id]
        status := fun x =>
          if x = id then SDL_AudioStatus.SDL_AUDIO_PAUSED else s.status x },
     some (id, s.negotiate spec))
  else (s0, none)

/-- Modelled from the spec: the constructor AudioDevice(device, iscapture,
spec, callback) (AudioDevice.hh line 190) opening with a fixed format; the
body lives in the missing translation unit.  The spec parameter is taken
by const reference in the header, so the descriptor after the call is
returned unchanged; on failure a DeviceOpenError carrying the subsystem
diagnostic is raised and no handle value exists. -/
def AudioDevice.openSpecified (s : AudioSubsystem) (_device : Option String)
    (_iscapture : Bool) (spec : Nat) (callback : Option Nat) :
    AudioSubsystem × Nat × Except DeviceOpenError AudioDevice :=
  match SDL_OpenAudioDevice s spec with
  | (s1, some (id, _obtained)) => (s1, spec, Except.ok ⟨id, callback⟩)
  | (s1, none) => (s1, spec, Except.error ⟨s1.errorMsg⟩)

/-- Modelled from the spec: the constructor AudioDevice(device, iscapture,
spec, allowed_changes, callback) (AudioDevice.hh line 208) opening with a
desired, negotiable format; the body lives in the missing translation
unit.  The spec parameter is a non-const reference; on success it is
overwritten with the actually negotiated format and returned, on failure
it is left unchanged. -/
def AudioDevice.openDesired (s : AudioSubsystem) (_device : Option String)
    (_iscapture : Bool) (spec : Nat) (_allowed_changes : Nat) (callback : Option Nat) :
    AudioSubsystem × Nat × Except DeviceOpenError AudioDevice :=
  match SDL_OpenAudioDevice s spec with
  | (s1, some (id, obtained)) => (s1, obtained, Except.ok ⟨id, callback⟩)
  | (s1, none) => (s1, spec, Except.error ⟨s1.errorMsg⟩)

/-- AudioDevice::Get (AudioDevice.hh line 244): returns the contained
audio device id. -/
def AudioDevice.Get (self : AudioDevice) : DeviceId :=
  self.device_id_

/-- Modelled from the spec: the AudioDevice destructor closes the device
id if it is still valid and performs no subsystem call on the sentinel. -/
def AudioDevice.destructor (s : AudioSubsystem) (self : AudioDevice) : AudioSubsystem :=
  if self.device_id_ ≠ 0 then SDL_CloseAudioDevice s self.device_id_ else s

/-- Modelled from the spec: AudioDevice::Pause forwards to the subsystem
pause primitive with the stored id; on the sentinel id the primitive has
no effect. -/
def AudioDevice.Pause (s : AudioSubsystem) (self : AudioDevice) (pause_on : Bool) :
    AudioSubsystem :=
  SDL_PauseAudioDevice s self.device_id_ pause_on

/-- Modelled from the spec: AudioDevice::GetStatus is a pure query of the
subsystem playback status of the stored id. -/
def AudioDevice.GetStatus (s : AudioSubsystem) (self : AudioDevice) : SDL_AudioStatus :=
  SDL_GetAudioDeviceStatus s self.device_id_

/-- Modelled from the spec: AudioDevice::ChangeCallback swaps the stored
callback while holding the device lock: it acquires a DeviceLock,
performs the assignment, and releases the lock. -/
def AudioDevice.ChangeCallback (s : AudioSubsystem) (self : AudioDevice)
    (callback : Option Nat) : AudioSubsystem × AudioDevice :=
  let s1 := SDL_LockAudioDevice s self.device_id_
  let self1 := { self with callback_ := callback }
  let s2 := SDL_UnlockAudioDevice s1 self.device_id_
  (s2, self1)

/-- Modelled from the spec: the AudioDevice move constructor transfers the
device id and callback and resets the source to the sentinel with the
empty callback; no subsystem call is made. -/
def AudioDevice.moveCtor (other : AudioDevice) : AudioDevice × AudioDevice :=
  (⟨other.device_id_, other.callback_⟩, ⟨0, none⟩)

/-- Modelled from the spec: the AudioDevice move assignment operator first
closes the device the destination still owns (if any), then transfers id
and callback from the source, which becomes inert.  Returns the new
subsystem state, the new destination value, and the new source value. -/
def AudioDevice.moveAssign (s : AudioSubsystem) (self other : AudioDevice) :
    AudioSubsystem × AudioDevice × AudioDevice :=
  let s1 := if self.device_id_ ≠ 0 then SDL_CloseAudioDevice s self.device_id_ else s
  (s1, ⟨other.device_id_, other.callback_⟩, ⟨0, none⟩)

/-- A world of AudioDevice instances: the subsystem together with the
instances created so far.  A slot holding the sentinel id is a moved-from
or destroyed instance. -/
structure DeviceWorld where
  sub : AudioSubsystem
  handles : List AudioDevice

/-- The operations the AudioDevice interface offers for creating,
transferring and ending ownership of a device session.  There is no copy
operation: the header deletes the copy constructor and the copy
assignment operator (AudioDevice.hh lines 235 to 236), so ownership can
only move. -/
inductive DeviceOp where
  | openOp (spec : Nat) (callback : Option Nat)
  | moveCtorOp (i : Nat)
  | moveAssignOp (i j : Nat)
  | destroyOp (i : Nat)
deriving DecidableEq, Repr

/-- The AudioDevice interface operations acting on a DeviceWorld; indices
select the instance slot a member function runs on. -/
def DeviceWorld.runOp (w : DeviceWorld) : DeviceOp → DeviceWorld
  | .openOp spec callback =>
      match AudioDevice.openSpecified w.sub none false spec callback with
      | (s1, _, Except.ok d) => { sub := s1, handles := w.handles ++ [d] }
      | (s1, _, Except.error _) => { sub := s1, handles := w.handles }
  | .moveCtorOp i =>
      match w.handles[i]? with
      | none => w
      | some d =>
          { sub := w.sub
            handles := (w.handles.set i (AudioDevice.moveCtor d).2)
              ++ [(AudioDevice.moveCtor d).1] }
  | .moveAssignOp i j =>
      if i = j then w else
      match w.handles[i]?, w.handles[j]? with
      | some di, some dj =>
          { sub := (AudioDevice.moveAssign w.sub di dj).1
            handles :=
              (w.handles.set i (AudioDevice.moveAssign w.sub di dj).2.1).set j
                (AudioDevice.moveAssign w.sub di dj).2.2 }
      | _, _ => w
  | .destroyOp i =>
      match w.handles[i]? with
      | none => w
      | some d =>
          { sub := AudioDevice.destructor w.sub d
            handles := w.handles.set i ⟨0, none⟩ }

/-- Run a sequence of AudioDevice interface operations. -/
def DeviceWorld.runProg (w : DeviceWorld) (ops : List DeviceOp) : DeviceWorld :=
  ops.foldl DeviceWorld.runOp w

/-- At most one instance owns a given live device id, and every stored id
is within the range of ids the subsystem has handed out so far. -/
def DeviceWorld.UniqueOwnership (w : DeviceWorld) : Prop :=
  (∀ d ∈ w.handles, d.device_id_ ≤ w.sub.nextId)
  ∧ (∀ (i j : Nat) (di dj : AudioDevice),
      w.handles[i]? = some di → w.handles[j]? = some dj →
      di.device_id_ ≠ 0 → di.device_id_ = dj.device_id_ → i = j)

/-- A quiescent initial device world with no instance created yet. -/
def deviceWorld0 : DeviceWorld :=
  { sub := lockWorld0.sub, handles := [] }

/-- The two machine words of a stored type-erased callback value: a torn
read would observe the first half of one value together with the second
half of another. -/
structure CallbackWord where
  half1 : Nat
  half2 : Nat
deriving DecidableEq, Repr

/-- The state the subsystem callback thread can observe around a callback
swap: the recursive lock counter of the device and the stored callback
words. -/
structure TrampolineView where
  lockCount : Nat
  cb : CallbackWord
deriving DecidableEq, Repr

/-- Whether the subsystem may invoke the trampoline in this state:
delivery happens only while the device is unlocked. -/
def TrampolineView.delivers (v : TrampolineView) : Bool :=
  decide (v.lockCount = 0)

/-- Modelled from the spec: the sequence of states of ChangeCallback as
the callback thread can observe them when interleaved with the swap.  The
swap is performed while the internal DeviceLock is held; writing the two
words of the new callback value is not atomic, so the intermediate state
after the first word holds a torn value, reachable only under the lock. -/
def changeCallbackStates (v : TrampolineView) (newCb : CallbackWord) :
    List TrampolineView :=
  let locked : TrampolineView := { v with lockCount := v.lockCount + 1 }
  let wrote1 : TrampolineView := { locked with cb := ⟨newCb.half1, locked.cb.half2⟩ }
  let wrote2 : TrampolineView := { wrote1 with cb := newCb }
  let released : TrampolineView := { wrote2 with lockCount := wrote2.lockCount - 1 }
  [v, locked, wrote1, wrote2, released]

theorem countP_set_add {α : Type} (p : α → Bool) (l : List α) (i : Nat) (a b : α)
    (h : l[i]? = some a) :
    (l.set i b).countP p + (if p a then 1 else 0)
      = l.countP p + (if p b then 1 else 0) := by
  induction l generalizing i with
  | nil => simp at h
  | cons x xs ih =>
    cases i with
    | zero =>
      simp only [List.getElem?_cons_zero, Option.some.injEq] at h
      subst h
      simp only [List.set, List.countP_cons]
      omega
    | succ n =>
      simp only [List.getElem?_cons_succ] at h
      have hx := ih n h
      simp only [List.set, List.countP_cons]
      omega

theorem lockCount_SDL_LockAudioDevice (s : AudioSubsystem) (id x : DeviceId) :
    (SDL_LockAudioDevice s id).lockCount x
      = s.lockCount x + (if x = id then 1 else 0) := by
  simp only [SDL_LockAudioDevice]
  split <;> simp

theorem lockCount_SDL_UnlockAudioDevice (s : AudioSubsystem) (id x : DeviceId) :
    (SDL_UnlockAudioDevice s id).lockCount x
      = s.lockCount x - (if x = id then 1 else 0) := by
  simp only [SDL_UnlockAudioDevice]
  split <;> simp

theorem lockCount_lockBinding (s : AudioSubsystem) (b : Option DeviceId) (x : DeviceId) :
    (lockBinding s b).lockCount x
      = s.lockCount x + (if b = some x then 1 else 0) := by
  cases b with
  | none => simp [lockBinding]
  | some id =>
    simp only [lockBinding, lockCount_SDL_LockAudioDevice, Option.some.injEq]
    by_cases hx : x = id <;> simp [hx, eq_comm]

theorem lockCount_unlockBinding (s : AudioSubsystem) (b : Option DeviceId) (x : DeviceId) :
    (unlockBinding s b).lockCount x
      = s.lockCount x - (if b = some x then 1 else 0) := by
  cases b with
  | none => simp [unlockBinding]
  | some id =>
    simp only [unlockBinding, lockCount_SDL_UnlockAudioDevice, Option.some.injEq]
    by_cases hx : x = id <;> simp [hx, eq_comm]

theorem boundCount_pos_of_mem (w : LockWorld) (i : Nat) (h : LockHandle) (id : DeviceId)
    (hget : w.tokens[i]? = some h) (hbind : h.device_ = some id) :
    0 < w.boundCount id := by
  refine List.countP_pos_iff.mpr ⟨h, List.getElem?_mem hget, ?_⟩
  simp [hbind]

theorem LockWorld.runOp_Inv (w : LockWorld) (op : LockOp) (hw : w.Inv) :
    (w.runOp op).Inv := by
  cases op with
  | lockOp id =>
    intro x
    have hb := hw x
    simp only [runOp, boundCount, List.countP_append, lockCount_SDL_LockAudioDevice] at hb ⊢
    by_cases hx : x = id
    · subst hx
      simp [List.countP_cons]
      omega
    · simp [List.countP_cons, hx, Ne.symm hx]
      omega
  | copyCtorOp i =>
    simp only [runOp]
    split
    · exact hw
    · next h hti =>
      intro x
      have hb := hw x
      simp only [boundCount, List.countP_append, lockCount_lockBinding] at hb ⊢
      by_cases hx : h.device_ = some x <;> simp [hx, List.countP_cons] <;> omega
  | copyAssignOp i j =>
    simp only [runOp]
    split
    · exact hw
    split
    · next hi hj hti htj =>
      intro x
      have hb := hw x
      have hset := countP_set_add (fun t => t.device_ == some x) w.tokens i hi hj hti
      simp only [boundCount, lockCount_lockBinding, lockCount_unlockBinding] at hb ⊢
      by_cases h1 : hi.device_ = some x <;> by_cases h2 : hj.device_ = some x
      · have hpos := boundCount_pos_of_mem w i hi x hti h1
        simp only [boundCount] at hpos
        simp only [h1, h2, beq_self_eq_true, if_pos, if_true] at hset ⊢
        simp at hset ⊢
        omega
      · have hpos := boundCount_pos_of_mem w i hi x hti h1
        simp only [boundCount] at hpos
        simp [h1, h2] at hset ⊢
        omega
      · simp [h1, h2] at hset ⊢
        omega
      · simp [h1, h2] at hset ⊢
        omega
    · next hne => exact hw
  | moveCtorOp i =>
    simp only [runOp]
    split
    · exact hw
    · next h hti =>
      intro x
      have hb := hw x
      have hset := countP_set_add (fun t => t.device_ == some x) w.tokens i h ⟨none⟩ hti
      simp only [boundCount, List.countP_append] at hb ⊢
      by_cases hx : h.device_ = some x <;> simp [hx, List.countP_cons] at hset ⊢ <;> omega
  | moveAssignOp i j =>
    simp only [runOp]
    split
    · exact hw
    next hne =>
    split
    · next hi hj hti htj =>
      intro x
      have hb := hw x
      have htj2 : (w.tokens.set i hj)[j]? = some hj := by
        rw [List.getElem?_set_ne hne]
        exact htj
      have hset1 := countP_set_add (fun t => t.device_ == some x) w.tokens i hi hj hti
      have hset2 :=
        countP_set_add (fun t => t.device_ == some x) (w.tokens.set i hj) j hj ⟨none⟩ htj2
      simp only [boundCount, lockCount_unlockBinding] at hb ⊢
      by_cases h1 : hi.device_ = some x <;> by_cases h2 : hj.device_ = some x
      · have hpos := boundCount_pos_of_mem w i hi x hti h1
        simp only [boundCount] at hpos
        simp [h1, h2] at hset1 hset2 ⊢
        omega
      · have hpos := boundCount_pos_of_mem w i hi x hti h1
        simp only [boundCount] at hpos
        simp [h1, h2] at hset1 hset2 ⊢
        omega
      · simp [h1, h2] at hset1 hset2 ⊢
        omega
      · simp [h1, h2] at hset1 hset2 ⊢
        omega
    · next hne => exact hw
  | destroyOp i =>
    simp only [runOp]
    split
    · exact hw
    · next h hti =>
      intro x
      have hb := hw x
      have hset := countP_set_add (fun t => t.device_ == some x) w.tokens i h ⟨none⟩ hti
      simp only [boundCount, lockCount_unlockBinding] at hb ⊢
      by_cases hx : h.device_ = some x
      · have hpos := boundCount_pos_of_mem w i h x hti hx
        simp only [boundCount] at hpos
        simp [hx] at hset ⊢
        omega
      · simp [hx] at hset ⊢
        omega

/-- The lock-accounting invariant is preserved by every sequence of
LockHandle member-function calls. -/
theorem LockWorld.runProg_Inv (w : LockWorld) (ops : List LockOp) (hw : w.Inv) :
    (w.runProg ops).Inv := by
  induction ops generalizing w with
  | nil => exact hw
  | cons op rest ih => exact ih (w.runOp op) (w.runOp_Inv op hw)

theorem lockWorld0_Inv : lockWorld0.Inv := fun _ => rfl

/-- C1: in every lock-accounted world, while at least one live
device-bound LockHandle for a device exists, the trampoline for that
device is not invoked; once no live bound token for the device remains
(all copies and moves destroyed), delivery is possible again; and
acquiring a further lock always succeeds and increments the recursive
counter, also when the device is already locked, so nested acquisition
from the same thread never self-deadlocks. -/
theorem C1_lock_blocks_trampoline (w : LockWorld) (hw : w.Inv) :
    (∀ (i : Nat) (h : LockHandle) (id : DeviceId),
        w.tokens[i]? = some h → h.device_ = some id →
        trampolineDelivers w.sub id = false)
    ∧ (∀ id : DeviceId, w.boundCount id = 0 → trampolineDelivers w.sub id = true)
    ∧ (∀ id : DeviceId,
        (w.runOp (LockOp.lockOp id)).sub.lockCount id = w.sub.lockCount id + 1) := by
  refine ⟨?_, ?_, ?_⟩
  · intro i h id hti hbind
    have hpos := boundCount_pos_of_mem w i h id hti hbind
    have hb := hw id
    simp only [trampolineDelivers, decide_eq_false_iff_not]
    omega
  · intro id h0
    have hb := hw id
    simp only [trampolineDelivers, decide_eq_true_eq]
    omega
  · intro id
    simp [LockWorld.runOp, lockCount_SDL_LockAudioDevice]

theorem C1_lock_blocks_trampoline_witness :
    trampolineDelivers ((lockWorld0.runOp (LockOp.lockOp 2)).sub) 2 = false
    ∧ trampolineDelivers lockWorld0.sub 2 = true := by
  constructor
  · exact (C1_lock_blocks_trampoline (lockWorld0.runOp (LockOp.lockOp 2))
      (lockWorld0.runOp_Inv (LockOp.lockOp 2) lockWorld0_Inv)).1 0 ⟨some 2⟩ 2 rfl rfl
  · exact (C1_lock_blocks_trampoline lockWorld0 lockWorld0_Inv).2.1 2 rfl

/-- C2: the recursive lock counter of every device always equals the
number of live device-bound tokens (preserved by every sequence of
LockHandle member-function calls); copy construction of a bound token
acquires one more unit; copy assignment from a bound token onto a no-op
token acquires one more unit; destruction of a bound token releases
exactly one unit; and for a pair of tokens on the same device, destroying
one of them leaves the device still locked, destroying both (in either
order, by symmetry of the quantifiers) unlocks it. -/
theorem C2_counter_equals_live_tokens (w : LockWorld) (hw : w.Inv) :
    (∀ ops : List LockOp, (w.runProg ops).Inv)
    ∧ (∀ (i : Nat) (h : LockHandle) (id : DeviceId),
        w.tokens[i]? = some h → h.device_ = some id →
        (w.runOp (LockOp.copyCtorOp i)).sub.lockCount id = w.sub.lockCount id + 1)
    ∧ (∀ (i j : Nat) (hi hj : LockHandle) (id : DeviceId),
        i ≠ j → w.tokens[i]? = some hi → w.tokens[j]? = some hj →
        hi.device_ = none → hj.device_ = some id →
        (w.runOp (LockOp.copyAssignOp i j)).sub.lockCount id = w.sub.lockCount id + 1)
    ∧ (∀ (i : Nat) (h : LockHandle) (id : DeviceId),
        w.tokens[i]? = some h → h.device_ = some id →
        (w.runOp (LockOp.destroyOp i)).sub.lockCount id = w.sub.lockCount id - 1)
    ∧ (∀ (i j : Nat) (hi hj : LockHandle) (id : DeviceId),
        i ≠ j → w.tokens[i]? = some hi → w.tokens[j]? = some hj →
        hi.device_ = some id → hj.device_ = some id →
        w.boundCount id = 2 →
        (w.runOp (LockOp.destroyOp i)).sub.lockCount id = 1
        ∧ ((w.runOp (LockOp.destroyOp i)).runOp (LockOp.destroyOp j)).sub.lockCount id
            = 0) := by
  refine ⟨fun ops => w.runProg_Inv ops hw, ?_, ?_, ?_, ?_⟩
  · intro i h id hti hbind
    simp [LockWorld.runOp, hti, hbind, lockCount_lockBinding]
  · intro i j hi hj id hne hti htj hbi hbj
    simp [LockWorld.runOp, hne, hti, htj, hbi, hbj, lockCount_lockBinding,
      lockCount_unlockBinding, unlockBinding]
  · intro i h id hti hbind
    simp [LockWorld.runOp, hti, hbind, lockCount_unlockBinding]
  · intro i j hi hj id hne hti htj hbi hbj hcount
    have hfirst :
        (w.runOp (LockOp.destroyOp i)).sub.lockCount id = 1 := by
      have hb := hw id
      simp [LockWorld.runOp, hti, hbi, lockCount_unlockBinding]
      omega
    refine ⟨hfirst, ?_⟩
    have htj2 : (w.runOp (LockOp.destroyOp i)).tokens[j]? = some hj := by
      simp only [LockWorld.runOp, hti]
      rw [List.getElem?_set_ne hne]
      exact htj
    have hstep : ∀ w1 : LockWorld, w1.tokens[j]? = some hj →
        (w1.runOp (LockOp.destroyOp j)).sub.lockCount id = w1.sub.lockCount id - 1 := by
      intro w1 h1
      simp [LockWorld.runOp, h1, hbj, lockCount_unlockBinding]
    have hsecond := hstep (w.runOp (LockOp.destroyOp i)) htj2
    omega

theorem C2_counter_equals_live_tokens_witness :
    ((lockWorld0.runProg [LockOp.lockOp 5, LockOp.lockOp 5]).runOp
        (LockOp.destroyOp 0)).sub.lockCount 5 = 1
    ∧ (((lockWorld0.runProg [LockOp.lockOp 5, LockOp.lockOp 5]).runOp
        (LockOp.destroyOp 0)).runOp (LockOp.destroyOp 1)).sub.lockCount 5 = 0 := by
  exact (C2_counter_equals_live_tokens
      (lockWorld0.runProg [LockOp.lockOp 5, LockOp.lockOp 5])
      (lockWorld0.runProg_Inv [LockOp.lockOp 5, LockOp.lockOp 5] lockWorld0_Inv)).2.2.2.2
    0 1 ⟨some 5⟩ ⟨some 5⟩ 5 (by decide) rfl rfl rfl rfl rfl

/-- C4: moving a LockHandle transfers the binding without any subsystem
call (the whole subsystem state, counter and call log included, is
untouched by move construction) and nulls the source; destroying a
moved-from (null) token leaves the subsystem untouched as well; move
assignment first releases the unit the destination held (exactly one
guarded unlock of the destination binding) and then transfers the source
binding, nulling the source slot. -/
theorem C4_move_transfers_without_subsystem_calls (w : LockWorld) :
    (∀ (i : Nat) (h : LockHandle), w.tokens[i]? = some h →
        (w.runOp (LockOp.moveCtorOp i)).sub = w.sub
        ∧ (w.runOp (LockOp.moveCtorOp i)).tokens
            = (w.tokens.set i ⟨none⟩) ++ [h])
    ∧ (∀ i : Nat, w.tokens[i]? = some ⟨none⟩ →
        (w.runOp (LockOp.destroyOp i)).sub = w.sub)
    ∧ (∀ (i j : Nat) (hi hj : LockHandle),
        i ≠ j → w.tokens[i]? = some hi → w.tokens[j]? = some hj →
        (w.runOp (LockOp.moveAssignOp i j)).sub = unlockBinding w.sub hi.device_
        ∧ (w.runOp (LockOp.moveAssignOp i j)).tokens
            = (w.tokens.set i hj).set j ⟨none⟩) := by
  refine ⟨?_, ?_, ?_⟩
  · intro i h hti
    simp [LockWorld.runOp, hti]
  · intro i hti
    simp [LockWorld.runOp, hti, unlockBinding]
  · intro i j hi hj hne hti htj
    simp [LockWorld.runOp, hne, hti, htj]

theorem contains_filter_ne_self (l : List DeviceId) (id : DeviceId) :
    (l.filter (fun x => x != id)).contains id = false := by
  simp [List.elem_eq_mem, List.mem_filter]

theorem getElem?_append_singleton_cases {α : Type} (l : List α) (d : α) (k : Nat) (x : α)
    (h : (l ++ [d])[k]? = some x) :
    l[k]? = some x ∨ (k = l.length ∧ x = d) := by
  rw [List.getElem?_append] at h
  split at h
  · exact Or.inl h
  · right
    next hk =>
    have hlt : k - l.length < 1 := by
      have := (List.getElem?_eq_some.mp h).1
      simpa using this
    have hk2 : k = l.length := by omega
    subst hk2
    simp only [Nat.sub_self, List.getElem?_cons_zero, Option.some.injEq] at h
    exact ⟨rfl, h.symm⟩

theorem getElem?_set_cases {α : Type} (l : List α) (i k : Nat) (b x : α)
    (h : (l.set i b)[k]? = some x) :
    (k = i ∧ x = b) ∨ (k ≠ i ∧ l[k]? = some x) := by
  by_cases hk : k = i
  · subst hk
    left
    refine ⟨rfl, ?_⟩
    have hlen : k < l.length := by
      have := (List.getElem?_eq_some.mp h).1
      simpa using this
    rw [List.getElem?_set_eq_of_lt b hlen] at h
    exact (Option.some_inj.mp h).symm
  · right
    refine ⟨hk, ?_⟩
    rwa [List.getElem?_set_ne (Ne.symm hk)] at h

/-- C3: the AudioDevice move constructor transfers the device id (the Get
value) and the callback to the destination and resets the source to the
sentinel id with the empty callback; afterwards the destructor of the
source makes no subsystem call at all, Pause on the source changes no
device status and unregisters nothing (the sentinel is never a registered
id), and GetStatus on the source reports the terminal Stopped state; move
assignment onto a destination that still owns a valid device closes that
device first, so it is no longer registered. -/
theorem C3_audio_device_move (s : AudioSubsystem) (other self : AudioDevice)
    (pause_on : Bool) (hs : s.openIds.contains 0 = false) :
    (AudioDevice.moveCtor other).1.Get = other.Get
    ∧ (AudioDevice.moveCtor other).1.callback_ = other.callback_
    ∧ (AudioDevice.moveCtor other).2 = ⟨0, none⟩
    ∧ AudioDevice.destructor s (AudioDevice.moveCtor other).2 = s
    ∧ (AudioDevice.Pause s (AudioDevice.moveCtor other).2 pause_on).status = s.status
    ∧ (AudioDevice.Pause s (AudioDevice.moveCtor other).2 pause_on).openIds = s.openIds
    ∧ AudioDevice.GetStatus s (AudioDevice.moveCtor other).2
        = SDL_AudioStatus.SDL_AUDIO_STOPPED
    ∧ (self.device_id_ ≠ 0 →
        (AudioDevice.moveAssign s self other).1
            = SDL_CloseAudioDevice s self.device_id_
        ∧ (AudioDevice.moveAssign s self other).1.openIds.contains self.device_id_
            = false
        ∧ (AudioDevice.moveAssign s self other).2.1
            = ⟨other.device_id_, other.callback_⟩
        ∧ (AudioDevice.moveAssign s self other).2.2 = ⟨0, none⟩) := by
  have hs2 : ¬ (0 : DeviceId) ∈ s.openIds := by simpa using hs
  refine ⟨rfl, rfl, rfl, ?_, ?_, ?_, ?_, ?_⟩
  · simp [AudioDevice.destructor, AudioDevice.moveCtor]
  · simp [AudioDevice.Pause, AudioDevice.moveCtor, SDL_PauseAudioDevice, hs2]
  · simp [AudioDevice.Pause, AudioDevice.moveCtor, SDL_PauseAudioDevice, hs2]
  · simp [AudioDevice.GetStatus, AudioDevice.moveCtor, SDL_GetAudioDeviceStatus, hs2]
  · intro hvalid
    refine ⟨?_, ?_, rfl, rfl⟩
    · simp [AudioDevice.moveAssign, hvalid]
    · simp [AudioDevice.moveAssign, hvalid, SDL_CloseAudioDevice,
        contains_filter_ne_self]

theorem C3_audio_device_move_witness :
    (AudioDevice.moveCtor ⟨3, some 9⟩).1.Get = (⟨3, some 9⟩ : AudioDevice).Get
    ∧ AudioDevice.destructor lockWorld0.sub (AudioDevice.moveCtor ⟨3, some 9⟩).2
        = lockWorld0.sub := by
  have h := C3_audio_device_move lockWorld0.sub ⟨3, some 9⟩ ⟨4, none⟩ true rfl
  exact ⟨h.1, h.2.2.2.1⟩

/-- C5: when the subsystem rejects the format descriptor, both open
overloads raise DeviceOpenError carrying the subsystem diagnostic text; no
handle value exists and no resource is registered: the registered-device
list and the id counter are unchanged (strong exception safety). -/
theorem C5_open_failure_raises_DeviceOpenError (s : AudioSubsystem)
    (device : Option String) (iscapture : Bool) (spec allowed_changes : Nat)
    (callback : Option Nat) (hrej : s.accepts spec = false) :
    (AudioDevice.openSpecified s device iscapture spec callback).2.2
        = Except.error ⟨s.errorMsg⟩
    ∧ (AudioDevice.openSpecified s device iscapture spec callback).1.openIds
        = s.openIds
    ∧ (AudioDevice.openSpecified s device iscapture spec callback).1.nextId = s.nextId
    ∧ (AudioDevice.openDesired s device iscapture spec allowed_changes callback).2.2
        = Except.error ⟨s.errorMsg⟩
    ∧ (AudioDevice.openDesired s device iscapture spec allowed_changes callback).1.openIds
        = s.openIds
    ∧ (AudioDevice.openDesired s device iscapture spec allowed_changes callback).1.nextId
        = s.nextId := by
  refine ⟨?_, ?_, ?_, ?_, ?_, ?_⟩ <;>
    simp [AudioDevice.openSpecified, AudioDevice.openDesired, SDL_OpenAudioDevice, hrej]

theorem C5_open_failure_raises_DeviceOpenError_witness :
    (AudioDevice.openSpecified
        { lockWorld0.sub with accepts := fun _ => false, errorMsg := "no device" }
        none false 3 none).2.2
      = Except.error ⟨"no device"⟩ := by
  exact (C5_open_failure_raises_DeviceOpenError
    { lockWorld0.sub with accepts := fun _ => false, errorMsg := "no device" }
    none false 3 0 none rfl).1

/-- C8: for every format descriptor the subsystem accepts, both open
overloads succeed with the same handle value, whose Get value is a
non-sentinel device id, whose initial status is Paused, and which starts
Playing only after an explicit Pause(false). -/
theorem C8_open_yields_paused_device (s : AudioSubsystem) (device : Option String)
    (iscapture : Bool) (spec allowed_changes : Nat) (callback : Option Nat)
    (hacc : s.accepts spec = true) :
    ∃ d : AudioDevice,
      (AudioDevice.openSpecified s device iscapture spec callback).2.2 = Except.ok d
      ∧ (AudioDevice.openDesired s device iscapture spec allowed_changes callback).2.2
          = Except.ok d
      ∧ d.Get ≠ 0
      ∧ AudioDevice.GetStatus
          (AudioDevice.openSpecified s device iscapture spec callback).1 d
          = SDL_AudioStatus.SDL_AUDIO_PAUSED
      ∧ AudioDevice.GetStatus
          (AudioDevice.Pause
            (AudioDevice.openSpecified s device iscapture spec callback).1 d false) d
          = SDL_AudioStatus.SDL_AUDIO_PLAYING := by
  refine ⟨⟨s.nextId + 1, callback⟩, ?_, ?_, ?_, ?_, ?_⟩
  · simp [AudioDevice.openSpecified, SDL_OpenAudioDevice, hacc]
  · simp [AudioDevice.openDesired, SDL_OpenAudioDevice, hacc]
  · simp [AudioDevice.Get]
  · simp [AudioDevice.GetStatus, AudioDevice.openSpecified, SDL_OpenAudioDevice, hacc,
      SDL_GetAudioDeviceStatus]
  · simp [AudioDevice.GetStatus, AudioDevice.Pause, AudioDevice.openSpecified,
      SDL_OpenAudioDevice, hacc, SDL_GetAudioDeviceStatus, SDL_PauseAudioDevice]

theorem C8_open_yields_paused_device_witness :
    ∃ d : AudioDevice,
      (AudioDevice.openSpecified lockWorld0.sub none false 3 (some 1)).2.2 = Except.ok d
      ∧ (AudioDevice.openDesired lockWorld0.sub none false 3 0 (some 1)).2.2
          = Except.ok d
      ∧ d.Get ≠ 0
      ∧ AudioDevice.GetStatus
          (AudioDevice.openSpecified lockWorld0.sub none false 3 (some 1)).1 d
          = SDL_AudioStatus.SDL_AUDIO_PAUSED
      ∧ AudioDevice.GetStatus
          (AudioDevice.Pause
            (AudioDevice.openSpecified lockWorld0.sub none false 3 (some 1)).1 d false) d
          = SDL_AudioStatus.SDL_AUDIO_PLAYING :=
  C8_open_yields_paused_device lockWorld0.sub none false 3 0 (some 1) rfl

/-- C9: the fixed-format overload takes its descriptor by const reference
(AudioDevice.hh line 190) and the descriptor after the call is always the
one passed in, while the negotiated overload takes it by non-const
reference (AudioDevice.hh line 208) and after a successful open the
descriptor holds the actually negotiated format. -/
theorem C9_spec_argument_mutation (s : AudioSubsystem) (device : Option String)
    (iscapture : Bool) (spec allowed_changes : Nat) (callback : Option Nat) :
    (AudioDevice.openSpecified s device iscapture spec callback).2.1 = spec
    ∧ (s.accepts spec = true →
        (AudioDevice.openDesired s device iscapture spec allowed_changes callback).2.1
          = s.negotiate spec) := by
  constructor
  · by_cases hacc : s.accepts spec <;>
      simp [AudioDevice.openSpecified, SDL_OpenAudioDevice, hacc]
  · intro hacc
    simp [AudioDevice.openDesired, SDL_OpenAudioDevice, hacc]

theorem C9_spec_argument_mutation_witness :
    (AudioDevice.openDesired
        { lockWorld0.sub with negotiate := fun x => x + 40 }
        none false 2 0 none).2.1 = 42 := by
  exact (C9_spec_argument_mutation
    { lockWorld0.sub with negotiate := fun x => x + 40 } none false 2 0 none).2 rfl

/-- C6: ChangeCallback swaps the stored callback while the device lock is
held: at device level the swap makes exactly one lock call followed by
one unlock call and restores the lock counter, and the new callback is
installed; in the interleaved observation model of the swap, every state
in which the trampoline may run (lock counter zero) shows either the
fully old or the fully new callback value, never the torn intermediate
one, and the final state carries the new value with the counter
restored. -/
theorem C6_changeCallback_atomic_under_lock (s : AudioSubsystem) (self : AudioDevice)
    (callback : Option Nat) (v : TrampolineView) (newCb : CallbackWord) :
    (AudioDevice.ChangeCallback s self callback).2.callback_ = callback
    ∧ (AudioDevice.ChangeCallback s self callback).1.lockCount = s.lockCount
    ∧ (AudioDevice.ChangeCallback s self callback).1.log
        = s.log ++ [Call.lockCall self.device_id_, Call.unlockCall self.device_id_]
    ∧ (∀ st ∈ changeCallbackStates v newCb,
        st.delivers = true → st.cb = v.cb ∨ st.cb = newCb)
    ∧ (changeCallbackStates v newCb).getLast? = some ⟨v.lockCount, newCb⟩ := by
  refine ⟨rfl, ?_, ?_, ?_, ?_⟩
  · funext x
    simp only [AudioDevice.ChangeCallback, SDL_UnlockAudioDevice, SDL_LockAudioDevice]
    by_cases hx : x = self.device_id_ <;> simp [hx]
  · simp [AudioDevice.ChangeCallback, SDL_UnlockAudioDevice, SDL_LockAudioDevice]
  · intro st hst hdel
    simp only [changeCallbackStates, List.mem_cons, List.not_mem_nil, or_false] at hst
    rcases hst with h | h | h | h | h
    · subst h; left; rfl
    · subst h
      simp [TrampolineView.delivers] at hdel
    · subst h
      simp [TrampolineView.delivers] at hdel
    · subst h
      simp [TrampolineView.delivers] at hdel
    · subst h; right; rfl
  · simp [changeCallbackStates]

theorem C6_changeCallback_atomic_under_lock_witness :
    (⟨0, ⟨3, 4⟩⟩ : TrampolineView).cb = (⟨0, ⟨1, 2⟩⟩ : TrampolineView).cb
    ∨ (⟨0, ⟨3, 4⟩⟩ : TrampolineView).cb = (⟨3, 4⟩ : CallbackWord) := by
  exact (C6_changeCallback_atomic_under_lock lockWorld0.sub ⟨1, none⟩ (some 8)
    ⟨0, ⟨1, 2⟩⟩ ⟨3, 4⟩).2.2.2.1 ⟨0, ⟨3, 4⟩⟩ (by decide) (by decide)

theorem C4_move_transfers_without_subsystem_calls_witness :
    ((lockWorld0.runOp (LockOp.lockOp 7)).runOp (LockOp.moveCtorOp 0)).sub
      = (lockWorld0.runOp (LockOp.lockOp 7)).sub
    ∧ ((lockWorld0.runOp (LockOp.lockOp 7)).runOp (LockOp.moveCtorOp 0)).tokens
      = [⟨none⟩, ⟨some 7⟩] := by
  have h := (C4_move_transfers_without_subsystem_calls
      (lockWorld0.runOp (LockOp.lockOp 7))).1 0 ⟨some 7⟩ rfl
  exact ⟨h.1, h.2⟩

theorem DeviceWorld.runOp_unique (w : DeviceWorld) (op : DeviceOp)
    (hw : w.UniqueOwnership) : (w.runOp op).UniqueOwnership := by
  obtain ⟨hbound, huniq⟩ := hw
  cases op with
  | openOp spec callback =>
    by_cases hacc : w.sub.accepts spec = true
    · have hh : (w.runOp (DeviceOp.openOp spec callback)).handles
          = w.handles ++ [⟨w.sub.nextId + 1, callback⟩] := by
        simp [runOp, AudioDevice.openSpecified, SDL_OpenAudioDevice, hacc]
      have hn : (w.runOp (DeviceOp.openOp spec callback)).sub.nextId
          = w.sub.nextId + 1 := by
        simp [runOp, AudioDevice.openSpecified, SDL_OpenAudioDevice, hacc]
      constructor
      · intro d hd
        rw [hh] at hd
        rw [hn]
        rcases List.mem_append.mp hd with hmem | hmem
        · exact Nat.le_succ_of_le (hbound d hmem)
        · simp only [List.mem_singleton] at hmem
          subst hmem
          simp
      · intro i j di dj hi hj hdi heq
        rw [hh] at hi hj
        rcases getElem?_append_singleton_cases _ _ _ _ hi with hi1 | ⟨hik, hiv⟩ <;>
          rcases getElem?_append_singleton_cases _ _ _ _ hj with hj1 | ⟨hjk, hjv⟩
        · exact huniq i j di dj hi1 hj1 hdi heq
        · exfalso
          subst hjv
          have hb := hbound di (List.getElem?_mem hi1)
          dsimp only at heq
          omega
        · exfalso
          subst hiv
          have hb := hbound dj (List.getElem?_mem hj1)
          dsimp only at heq
          omega
        · exact hik.trans hjk.symm
    · have hh : (w.runOp (DeviceOp.openOp spec callback)).handles = w.handles := by
        simp [runOp, AudioDevice.openSpecified, SDL_OpenAudioDevice, hacc]
      have hn : (w.runOp (DeviceOp.openOp spec callback)).sub.nextId = w.sub.nextId := by
        simp [runOp, AudioDevice.openSpecified, SDL_OpenAudioDevice, hacc]
      constructor
      · intro d hd
        rw [hh] at hd
        rw [hn]
        exact hbound d hd
      · intro i j di dj hi hj hdi heq
        rw [hh] at hi hj
        exact huniq i j di dj hi hj hdi heq
  | moveCtorOp i =>
    cases hti : w.handles[i]? with
    | none =>
      have hid : w.runOp (DeviceOp.moveCtorOp i) = w := by
        simp [runOp, hti]
      rw [hid]
      exact ⟨hbound, huniq⟩
    | some d =>
      have hh : (w.runOp (DeviceOp.moveCtorOp i)).handles
          = (w.handles.set i ⟨0, none⟩) ++ [⟨d.device_id_, d.callback_⟩] := by
        simp [runOp, hti, AudioDevice.moveCtor]
      have hsub : (w.runOp (DeviceOp.moveCtorOp i)).sub = w.sub := by
        simp [runOp, hti]
      constructor
      · intro x hx
        rw [hh] at hx
        rw [hsub]
        rcases List.mem_append.mp hx with hmem | hmem
        · rcases List.mem_or_eq_of_mem_set hmem with hmem2 | hx0
          · exact hbound x hmem2
          · subst hx0
            simp
        · simp only [List.mem_singleton] at hmem
          subst hmem
          exact hbound d (List.getElem?_mem hti)
      · intro k l di dj hi hj hdi heq
        rw [hh] at hi hj
        rcases getElem?_append_singleton_cases _ _ _ _ hi with hi1 | ⟨hik, hiv⟩ <;>
          rcases getElem?_append_singleton_cases _ _ _ _ hj with hj1 | ⟨hjk, hjv⟩
        · rcases getElem?_set_cases _ _ _ _ _ hi1 with ⟨hii, hdix⟩ | ⟨hii, hi2⟩
          · subst hdix
            simp at hdi
          · rcases getElem?_set_cases _ _ _ _ _ hj1 with ⟨hjj, hdjx⟩ | ⟨hjj, hj2⟩
            · subst hdjx
              dsimp only at heq
              exact absurd heq hdi
            · exact huniq k l di dj hi2 hj2 hdi heq
        · exfalso
          rcases getElem?_set_cases _ _ _ _ _ hi1 with ⟨hii, hdix⟩ | ⟨hii, hi2⟩
          · subst hdix
            simp at hdi
          · subst hjv
            dsimp only at heq
            exact hii (huniq k i di d hi2 hti hdi heq)
        · exfalso
          rcases getElem?_set_cases _ _ _ _ _ hj1 with ⟨hjj, hdjx⟩ | ⟨hjj, hj2⟩
          · subst hdjx
            subst hiv
            dsimp only at heq hdi
            exact hdi heq
          · subst hiv
            dsimp only at heq hdi
            exact hjj (huniq l i dj d hj2 hti (heq ▸ hdi) heq.symm)
        · exact hik.trans hjk.symm
  | moveAssignOp i j =>
    by_cases hij : i = j
    · have hid : w.runOp (DeviceOp.moveAssignOp i j) = w := by
        simp [runOp, hij]
      rw [hid]
      exact ⟨hbound, huniq⟩
    · cases hti : w.handles[i]? with
      | none =>
        have hid : w.runOp (DeviceOp.moveAssignOp i j) = w := by
          simp [runOp, hij, hti]
        rw [hid]
        exact ⟨hbound, huniq⟩
      | some di0 =>
        cases htj : w.handles[j]? with
        | none =>
          have hid : w.runOp (DeviceOp.moveAssignOp i j) = w := by
            simp [runOp, hij, hti, htj]
          rw [hid]
          exact ⟨hbound, huniq⟩
        | some dj0 =>
          have hh : (w.runOp (DeviceOp.moveAssignOp i j)).handles
              = (w.handles.set i ⟨dj0.device_id_, dj0.callback_⟩).set j ⟨0, none⟩ := by
            simp [runOp, hij, hti, htj, AudioDevice.moveAssign]
          have hn : (w.runOp (DeviceOp.moveAssignOp i j)).sub.nextId
              = w.sub.nextId := by
            by_cases hv : di0.device_id_ ≠ 0 <;>
              simp [runOp, hij, hti, htj, AudioDevice.moveAssign, hv,
                SDL_CloseAudioDevice]
          constructor
          · intro x hx
            rw [hh] at hx
            rw [hn]
            rcases List.mem_or_eq_of_mem_set hx with hmem | hx0
            · rcases List.mem_or_eq_of_mem_set hmem with hmem2 | hx1
              · exact hbound x hmem2
              · subst hx1
                exact hbound dj0 (List.getElem?_mem htj)
            · subst hx0
              simp
          · intro k l di dj hi hj hdi heq
            rw [hh] at hi hj
            rcases getElem?_set_cases _ _ _ _ _ hi with ⟨hkj, hdix⟩ | ⟨hkj, hi1⟩
            · subst hdix
              simp at hdi
            rcases getElem?_set_cases _ _ _ _ _ hj with ⟨hlj, hdjx⟩ | ⟨hlj, hj1⟩
            · subst hdjx
              dsimp only at heq
              exact absurd heq hdi
            rcases getElem?_set_cases _ _ _ _ _ hi1 with ⟨hki, hdix⟩ | ⟨hki, hi2⟩ <;>
              rcases getElem?_set_cases _ _ _ _ _ hj1 with ⟨hli, hdjx⟩ | ⟨hli, hj2⟩
            · exact hki.trans hli.symm
            · exfalso
              subst hdix
              dsimp only at heq hdi
              exact hlj (huniq l j dj dj0 hj2 htj (heq ▸ hdi) heq.symm)
            · exfalso
              subst hdjx
              dsimp only at heq
              exact hkj (huniq k j di dj0 hi2 htj hdi heq)
            · exact huniq k l di dj hi2 hj2 hdi heq
  | destroyOp i =>
    cases hti : w.handles[i]? with
    | none =>
      have hid : w.runOp (DeviceOp.destroyOp i) = w := by
        simp [runOp, hti]
      rw [hid]
      exact ⟨hbound, huniq⟩
    | some d =>
      have hh : (w.runOp (DeviceOp.destroyOp i)).handles
          = w.handles.set i ⟨0, none⟩ := by
        simp [runOp, hti]
      have hn : (w.runOp (DeviceOp.destroyOp i)).sub.nextId = w.sub.nextId := by
        by_cases hv : d.device_id_ ≠ 0 <;>
          simp [runOp, hti, AudioDevice.destructor, hv, SDL_CloseAudioDevice]
      constructor
      · intro x hx
        rw [hh] at hx
        rw [hn]
        rcases List.mem_or_eq_of_mem_set hx with hmem | hx0
        · exact hbound x hmem
        · subst hx0
          simp
      · intro k l di dj hi hj hdi heq
        rw [hh] at hi hj
        rcases getElem?_set_cases _ _ _ _ _ hi with ⟨hki, hdix⟩ | ⟨hki, hi1⟩
        · subst hdix
          simp at hdi
        rcases getElem?_set_cases _ _ _ _ _ hj with ⟨hli, hdjx⟩ | ⟨hli, hj1⟩
        · subst hdjx
          dsimp only at heq
          exact absurd heq hdi
        exact huniq k l di dj hi1 hj1 hdi heq

theorem deviceWorld0_unique : deviceWorld0.UniqueOwnership := by
  constructor
  · intro d hd
    simp [deviceWorld0] at hd
  · intro i j di dj hi
    simp [deviceWorld0] at hi

/-- C7: at most one AudioDevice instance holds a given live device id at
any time.  Copy construction and copy assignment are deleted in the
header (AudioDevice.hh lines 235 to 236), so the interface operations on
instances are opening, move construction, move assignment and
destruction; every sequence of these operations preserves unique
ownership of live device ids — ownership transfers by move and is never
duplicated. -/
theorem C7_no_duplicate_ownership (w : DeviceWorld) (hw : w.UniqueOwnership)
    (ops : List DeviceOp) : (w.runProg ops).UniqueOwnership := by
  induction ops generalizing w with
  | nil => exact hw
  | cons op rest ih => exact ih (w.runOp op) (w.runOp_unique op hw)

theorem C7_no_duplicate_ownership_witness :
    (deviceWorld0.runProg
        [DeviceOp.openOp 1 none, DeviceOp.moveCtorOp 0]).UniqueOwnership :=
  C7_no_duplicate_ownership deviceWorld0 deviceWorld0_unique
    [DeviceOp.openOp 1 none, DeviceOp.moveCtorOp 0]

/-- C10: the four move operations declared noexcept in the header
(AudioDevice.hh lines 128, 138, 222 and 232) can never raise an error:
over the subsystem call log, move construction of a LockHandle makes no
subsystem call, move assignment of a LockHandle makes at most a guarded
unlock call, the AudioDevice move constructor is a pure transfer making
no call at all, and the AudioDevice move assignment makes at most a
close call — and none of those calls is a fallible (throwing)
primitive. -/
theorem C10_move_operations_noexcept (w : LockWorld) (s : AudioSubsystem)
    (self other : AudioDevice) (i j : Nat) :
    (∃ new : List Call,
        (w.runOp (LockOp.moveCtorOp i)).sub.log = w.sub.log ++ new
        ∧ new.all (fun c => !c.canThrow) = true)
    ∧ (∃ new : List Call,
        (w.runOp (LockOp.moveAssignOp i j)).sub.log = w.sub.log ++ new
        ∧ new.all (fun c => !c.canThrow) = true)
    ∧ AudioDevice.moveCtor other = (⟨other.device_id_, other.callback_⟩, ⟨0, none⟩)
    ∧ (∃ new : List Call,
        (AudioDevice.moveAssign s self other).1.log = s.log ++ new
        ∧ new.all (fun c => !c.canThrow) = true) := by
  refine ⟨?_, ?_, rfl, ?_⟩
  · cases hti : w.tokens[i]? with
    | none => exact ⟨[], by simp [LockWorld.runOp, hti], rfl⟩
    | some h => exact ⟨[], by simp [LockWorld.runOp, hti], rfl⟩
  · by_cases hij : i = j
    · exact ⟨[], by simp [LockWorld.runOp, hij], rfl⟩
    · cases hti : w.tokens[i]? with
      | none => exact ⟨[], by simp [LockWorld.runOp, hij, hti], rfl⟩
      | some hi2 =>
        cases htj : w.tokens[j]? with
        | none => exact ⟨[], by simp [LockWorld.runOp, hij, hti, htj], rfl⟩
        | some hj2 =>
          cases hb : hi2.device_ with
          | none =>
            exact ⟨[],
              by simp [LockWorld.runOp, hij, hti, htj, hb, unlockBinding], rfl⟩
          | some d =>
            exact ⟨[Call.unlockCall d],
              by simp [LockWorld.runOp, hij, hti, htj, hb, unlockBinding,
                SDL_UnlockAudioDevice], rfl⟩
  · by_cases hv : self.device_id_ ≠ 0
    · exact ⟨[Call.closeCall self.device_id_],
        by simp [AudioDevice.moveAssign, hv, SDL_CloseAudioDevice], rfl⟩
    · exact ⟨[], by simp [AudioDevice.moveAssign, hv], rfl⟩

end SDL2pp
